import Mathlib

/-!
# Verification of the environment-credential encryption subsystem

Shallow embedding of the credential-resolution and encryption core of the
`playwright-ts-improvements-v3` repository, together with proofs of the
specification claims about it.

Conventions:
* TypeScript strings that may be `undefined` (e.g. `process.env.X`) are
  modelled as `Option String`.
* Byte sequences are modelled as `List Nat` (each entry a byte value).
* Thrown errors are modelled with `Except AppError`.
* Components of the repository whose implementation files are not part of
  the provided sources (the `CryptoService` cipher, `isValidEnvironmentStage`,
  and the CI credential getters) are modelled from the specification; their
  doc comments say so explicitly.
-/

/-- Error kinds of the subsystem (spec §7). The source throws plain `Error`
objects with distinguishing messages; we model the kinds as constructors. -/
inductive AppError where
  | invalidInput
  | missingEnvVar
  | invalidCredentials
  | decryptionAuthFailure
  | secretKeyNotFound
  deriving DecidableEq, Repr

/-- `Credentials`: plaintext username/password pair
(src/src/config/types/auth/credentials.types, used throughout the resolvers). -/
structure Credentials where
  username : String
  password : String
  deriving DecidableEq, Repr

/-- Byte lengths of the crypto primitives
(src/src/config/types/config/security.types.ts, `CryptoByteLengths`). -/
structure CryptoByteLengths where
  IV : Nat
  WEB_CRYPTO_IV : Nat
  SALT : Nat
  SECRET_KEY : Nat
  deriving DecidableEq, Repr

/-- Argon2 key-derivation parameters
(src/src/config/types/config/security.types.ts, `Argon2Config`). -/
structure Argon2Config where
  MEMORY_COST : Nat
  TIME_COST : Nat
  PARALLELISM : Nat
  deriving DecidableEq, Repr

/-- Security configuration record
(src/src/config/types/config/security.types.ts, `SecurityConfig`). -/
structure SecurityConfig where
  BYTE_LENGTHS : CryptoByteLengths
  ARGON2_PARAMETERS : Argon2Config
  deriving DecidableEq, Repr

/-- The shared security configuration constant
(src/src/config/types/config/security.types.ts, `SECURITY_CONFIG`).
`MEMORY_COST` is expressed in KiB, as in the source (262144 KiB = 256 MB). -/
def SECURITY_CONFIG : SecurityConfig :=
  { BYTE_LENGTHS :=
      { IV := 16
        WEB_CRYPTO_IV := 12
        SALT := 32
        SECRET_KEY := 32 }
    ARGON2_PARAMETERS :=
      { MEMORY_COST := 262144
        TIME_COST := 4
        PARALLELISM := 3 } }

/-! ## Sanitizer (src/src/api/validators/testResponseValidator.ts,
`SanitizationConfig.sanitizeString`) -/

/-- The characters removed by `sanitizeString`'s regex `/["'\\<>]/g`:
double quote (34), single quote (39), backslash (92), `<` (60), `>` (62). -/
def isRemovedChar (c : Char) : Bool :=
  c.toNat = 34 || c.toNat = 39 || c.toNat = 92 || c.toNat = 60 || c.toNat = 62

/-- JavaScript `String.prototype.trim` on a character list: drop leading and
trailing whitespace. -/
def trimChars (l : List Char) : List Char :=
  ((l.dropWhile Char.isWhitespace).reverse.dropWhile Char.isWhitespace).reverse

/-- JavaScript `String.prototype.trim` on a string: drop leading and trailing
whitespace characters. -/
def jsTrim (s : String) : String :=
  String.mk (trimChars s.data)

/-- `SanitizationConfig.sanitizeString` (src/src/api/validators/
testResponseValidator.ts): returns `''` for a falsy value, otherwise removes
quotes, backslashes and angle brackets and trims whitespace
(`value.replace(/["'\\<>]/g, '').trim()`). -/
def SanitizationConfig.sanitizeString (value : String) : String :=
  if value = "" then ""
  else String.mk (trimChars (value.data.filter (fun c => !isRemovedChar c)))

/-! ## Cipher model.

The cipher implementation (`src/cryptography/services/encryptionService.ts`,
class `CryptoService`) is not among the provided source files; only its
callers and the security configuration are. The definitions below are a
symbolic model built from the specification (§4.1, §4.2). -/

/-- Modelled from the spec: `KeyDerivationService.deriveKey` stretches
`masterSecret` and `salt` into a per-call symmetric key, deterministic and
injective in its inputs (Argon2id). The symbolic model keeps both inputs so
that distinct (secret, salt) pairs yield distinct keys, as an ideal KDF does;
the spec's `InvalidInputError` on empty inputs is not modelled because no
claim exercises it. -/
def deriveKey (masterSecret salt : List Nat) : List Nat :=
  masterSecret ++ salt

/-- Modelled from the spec: the keystream of the AES-256-GCM encryption step,
as a deterministic function of key, iv and length. Any fixed function works
for the symbolic model; confidentiality is not among the verified claims. -/
def keyStream (key iv : List Nat) (n : Nat) : List Nat :=
  (List.range n).map
    (fun i => (key.foldl (fun a b => a + b) 0 + iv.foldl (fun a b => a + b) 0 + i) % 256)

/-- Bytewise xor of two byte lists (truncating to the shorter). -/
def xorBytes (a b : List Nat) : List Nat :=
  List.zipWith (fun x y => x ^^^ y) a b

/-- `EncryptionBundle`: the salt/iv/cipherText triple persisted for one
encrypted value (spec §3; `EncryptionResult` in
src/src/config/types/config/security.types.ts, there hex-encoded strings,
here byte lists). Per spec §3 the `cipherText` component includes the
authentication tag. -/
structure EncryptionBundle where
  salt : List Nat
  iv : List Nat
  cipherText : List Nat
  deriving DecidableEq, Repr

/-- Modelled from the spec: `AuthenticatedCipher.encrypt` (§4.2). Derives a
per-call key from the master secret and the fresh `salt`, encrypts the
plaintext bytes by xor with the keystream, and appends an authentication tag.
The tag is the ideal-MAC value of (key, iv, body), modelled as the injective
concatenation `key ++ iv ++ body`; `cipherText` is `body ++ tag` as in the
spec ("variable length including authentication tag"). `salt` and `iv` are
passed in by the caller, standing for the fresh random draws of the real
implementation. -/
def encrypt (plainText masterSecret salt iv : List Nat) : EncryptionBundle :=
  let key := deriveKey masterSecret salt
  let body := xorBytes plainText (keyStream key iv plainText.length)
  { salt := salt, iv := iv, cipherText := body ++ (key ++ iv ++ body) }

/-- Modelled from the spec: `AuthenticatedCipher.decrypt` (§4.2). Re-derives
the key from the master secret and the bundle's stored salt, splits
`cipherText` into body and stored tag (the split position is determined by
the lengths alone), recomputes the ideal MAC and compares; on mismatch or a
malformed length it fails with `DecryptionAuthFailureError` and never returns
partial plaintext. -/
def decrypt (bundle : EncryptionBundle) (masterSecret : List Nat) :
    Except AppError (List Nat) :=
  let key := deriveKey masterSecret bundle.salt
  let overhead := key.length + bundle.iv.length
  let L := bundle.cipherText.length
  let n := (L - overhead) / 2
  let body := bundle.cipherText.take n
  let tagStored := bundle.cipherText.drop n
  if 2 * n + overhead = L ∧ tagStored = key ++ bundle.iv ++ body then
    .ok (xorBytes body (keyStream key bundle.iv body.length))
  else
    .error .decryptionAuthFailure

/-- Flip bit `j` of the byte at index `i` (single-bit modification of an
encoded component, spec §8 tamper detection). -/
def flipBit (l : List Nat) (i j : Nat) : List Nat :=
  l.set i ((l.getD i 0) ^^^ 2 ^ j)

/-! ## Environment-variable fetching and credential resolution
(src/src/config/environment/resolver/). -/

/-- `validateEnvironmentVariable` (identical private method of
`FetchCIEnvironmentVariables` and `FetchLocalEnvironmentVariables`): throws
when the value is falsy or trims to the empty string
(`if (!value || value.trim() === '')`). The thrown error is the spec's
`MissingEnvVarError`. -/
def validateEnvironmentVariable (value : Option String) : Except AppError Unit :=
  match value with
  | none => .error .missingEnvVar
  | some s => if jsTrim s = "" then .error .missingEnvVar else .ok ()

/-- `FetchCIEnvironmentVariables.getEnvironmentVariable`
(src/src/config/environment/resolver/fetchCIEnvironmentVariables.ts):
validates the raw CI environment value and returns
`SanitizationConfig.sanitizeString(value)`; the catch block logs and rethrows
the same error. -/
def fetchCIEnvironmentVariable (value : Option String) : Except AppError String :=
  match value with
  | none => .error .missingEnvVar
  | some s =>
      if jsTrim s = "" then .error .missingEnvVar
      else .ok (SanitizationConfig.sanitizeString s)

/-- `FetchLocalEnvironmentVariables.getEnvironmentVariable`
(src/src/config/environment/resolver/fetchLocalEnvironmentVariables.ts):
same validation; sanitizes only when the `sanitize` flag is true (every
caller in the source passes `false`). -/
def getLocalEnvironmentVariable (value : Option String) (sanitize : Bool) :
    Except AppError String :=
  match value with
  | none => .error .missingEnvVar
  | some s =>
      if jsTrim s = "" then .error .missingEnvVar
      else .ok (if sanitize then SanitizationConfig.sanitizeString s else s)

/-- `FetchLocalEnvironmentVariables.decryptCredentials`
(src/src/config/environment/resolver/fetchLocalEnvironmentVariables.ts):
decrypts username and password with `CryptoService.decrypt` and returns the
pair directly; the catch block rethrows the same error. `CryptoService`'s
implementation is not among the provided sources, so the decryption step is
a parameter `dec` (ciphertext → secretKey → plaintext or failure). Note the
returned fields are the raw `dec` outputs — no sanitization is applied. -/
def decryptCredentials (dec : String → String → Except AppError String)
    (username password secretKey : String) : Except AppError Credentials :=
  match dec username secretKey with
  | .error e => .error e
  | .ok u =>
      match dec password secretKey with
      | .error e => .error e
      | .ok p => .ok { username := u, password := p }

/-- `EnvironmentResolver.getEnvironmentValue`
(src/src/api/endpoints/resources/resources.type.ts):
`EnvironmentDetector.isCI() ? ciMethod() : localMethod()`, with the catch
block rethrowing the same error. -/
def getEnvironmentValue {α : Type} (isCI : Bool)
    (ciMethod localMethod : Except AppError α) : Except AppError α :=
  if isCI then ciMethod else localMethod

/-- Modelled from the spec: `FetchCIEnvironmentVariables.getAdminCredentials`
(and its portal/token siblings) are referenced by `EnvironmentResolver` and
typed by `CIEnvironmentVariables`, but their method bodies are not among the
provided sources. Per spec §4.5 the CI path reads the credential directly
from CI-provided plaintext environment values, failing with
`MissingEnvVarError` when absent, and returns a sanitized pair; each field
goes through the class's `getEnvironmentVariable`. -/
def getCICredentials (username password : Option String) :
    Except AppError Credentials :=
  match fetchCIEnvironmentVariable username with
  | .error e => .error e
  | .ok u =>
      match fetchCIEnvironmentVariable password with
      | .error e => .error e
      | .ok p => .ok { username := u, password := p }

/-- Operations on secret material, for call-tracking: decryption and
master-secret access (spec §8 resolver-dispatch property). -/
inductive CryptoOp where
  | decryptOp
  | readMasterSecretOp
  deriving DecidableEq, Repr

/-- A computation together with the trace of secret-material operations it
performs. -/
def Traced (α : Type) : Type := Except AppError α × List CryptoOp

/-- `EnvironmentResolver.getEnvironmentValue` at the trace level: the branch
not taken contributes nothing, since the source evaluates only the selected
thunk (`ciMethod()` or `localMethod()`). -/
def getEnvironmentValueTraced {α : Type} (isCI : Bool)
    (ciMethod localMethod : Traced α) : Traced α :=
  if isCI then ciMethod else localMethod

/-- The CI credential fetch with its (empty) secret-material trace: it only
reads `process.env` values, never the master secret or the cipher. -/
def getCICredentialsTraced (username password : Option String) :
    Traced Credentials :=
  (getCICredentials username password, [])

/-- The local credential fetch with its trace: it reads the stage's secret
key and invokes decryption twice
(`FetchLocalEnvironmentVariables.decryptCredentials`). -/
def decryptCredentialsTraced (dec : String → String → Except AppError String)
    (username password secretKey : String) : Traced Credentials :=
  (decryptCredentials dec username password secretKey,
    [.readMasterSecretOp, .decryptOp, .decryptOp])

/-! ## Stage detection
(src/src/config/environment/detector/detector.ts). -/

/-- JavaScript `||` on possibly-undefined environment strings: an unset or
empty value falls through to the alternative. -/
def jsOr (a : Option String) (b : String) : String :=
  match a with
  | none => b
  | some s => if s = "" then b else s

/-- Modelled from the spec: `isValidEnvironmentStage`
(src/config/environment/dotenv/types, not among the provided sources) — the
`DeploymentStage` membership test for {dev, uat, prod} (spec §3). -/
def isValidEnvironmentStage (s : String) : Bool :=
  s = "dev" || s = "uat" || s = "prod"

/-- `EnvironmentDetector.getCurrentStage`
(src/src/config/environment/detector/detector.ts):
`const env = process.env.ENV || process.env.NODE_ENV || 'dev'` followed by
`isValidEnvironmentStage(env) ? env : 'dev'`. -/
def EnvironmentDetector.getCurrentStage (envVar nodeEnvVar : Option String) : String :=
  let env := jsOr envVar (jsOr nodeEnvVar "dev")
  if isValidEnvironmentStage env then env else "dev"

/-! ## Helper lemmas -/

lemma length_keyStream (key iv : List Nat) (n : Nat) :
    (keyStream key iv n).length = n := by
  simp [keyStream]

lemma length_xorBytes (a b : List Nat) :
    (xorBytes a b).length = min a.length b.length := by
  simp [xorBytes]

lemma xorBytes_xorBytes_cancel :
    ∀ (p ks : List Nat), p.length ≤ ks.length → xorBytes (xorBytes p ks) ks = p := by
  intro p
  induction p with
  | nil => intro ks _; simp [xorBytes]
  | cons x xs ih =>
      intro ks hle
      cases ks with
      | nil => simp at hle
      | cons k kt =>
          simp only [xorBytes, List.zipWith_cons_cons] at *
          have := ih kt (by simpa using hle)
          simp [this, Nat.xor_cancel_right]

lemma flipBit_length (l : List Nat) (i j : Nat) :
    (flipBit l i j).length = l.length := by
  simp [flipBit]

lemma flipBit_ne (l : List Nat) (i j : Nat) (h : i < l.length) :
    flipBit l i j ≠ l := by
  intro he
  have hlt : i < (l.set i (l.getD i 0 ^^^ 2 ^ j)).length := by simpa using h
  have hv : (l.set i (l.getD i 0 ^^^ 2 ^ j)).getD i 0 = l.getD i 0 ^^^ 2 ^ j := by
    rw [List.getD_eq_getElem _ _ hlt]
    exact List.getElem_set_self hlt
  have he' : l.set i (l.getD i 0 ^^^ 2 ^ j) = l := he
  rw [he'] at hv
  have h3 := congrArg (fun z => l.getD i 0 ^^^ z) hv
  simp only [← Nat.xor_assoc, Nat.xor_self, Nat.zero_xor] at h3
  exact absurd h3.symm (Nat.pos_iff_ne_zero.mp (by positivity))

lemma decrypt_append_ok (s salt iv body tag : List Nat)
    (htag : tag = deriveKey s salt ++ iv ++ body) :
    decrypt ⟨salt, iv, body ++ tag⟩ s =
      .ok (xorBytes body (keyStream (deriveKey s salt) iv body.length)) := by
  have hlen : tag.length = (deriveKey s salt).length + iv.length + body.length := by
    subst htag; simp [Nat.add_assoc]
  simp only [decrypt]
  have hL : (body ++ tag).length = body.length + tag.length := by simp
  have hn : ((body ++ tag).length - ((deriveKey s salt).length + iv.length)) / 2
      = body.length := by
    rw [hL, hlen]; omega
  rw [hn, List.take_left' rfl, List.drop_left' rfl]
  have hcond : 2 * body.length + ((deriveKey s salt).length + iv.length)
      = (body ++ tag).length := by
    rw [hL, hlen]; omega
  rw [if_pos]
  constructor
  · exact hcond
  · rw [htag, List.append_assoc]

lemma decrypt_append_err (s salt iv body tag : List Nat)
    (hlen : tag.length = (deriveKey s salt).length + iv.length + body.length)
    (hne : tag ≠ deriveKey s salt ++ (iv ++ body)) :
    decrypt ⟨salt, iv, body ++ tag⟩ s = .error .decryptionAuthFailure := by
  simp only [decrypt]
  have hL : (body ++ tag).length = body.length + tag.length := by simp
  have hn : ((body ++ tag).length - ((deriveKey s salt).length + iv.length)) / 2
      = body.length := by
    rw [hL, hlen]; omega
  rw [hn, List.take_left' rfl, List.drop_left' rfl]
  rw [if_neg]
  intro hcon
  exact hne (by rw [hcon.2, List.append_assoc])

lemma decrypt_encrypt (p s salt iv : List Nat) :
    decrypt (encrypt p s salt iv) s = .ok p := by
  have hks : (keyStream (deriveKey s salt) iv p.length).length = p.length :=
    length_keyStream _ _ _
  have hbody : (xorBytes p (keyStream (deriveKey s salt) iv p.length)).length
      = p.length := by
    rw [length_xorBytes, hks, Nat.min_self]
  have h := decrypt_append_ok s salt iv
    (xorBytes p (keyStream (deriveKey s salt) iv p.length))
    (deriveKey s salt ++ iv ++ xorBytes p (keyStream (deriveKey s salt) iv p.length))
    rfl
  simp only [encrypt]
  rw [h, hbody]
  rw [xorBytes_xorBytes_cancel p _ (le_of_eq hks.symm)]

lemma tamper_ct (p s salt iv : List Nat) (i j : Nat)
    (hi : i < (encrypt p s salt iv).cipherText.length) :
    decrypt { salt := salt, iv := iv,
              cipherText := flipBit (encrypt p s salt iv).cipherText i j } s
      = .error .decryptionAuthFailure := by
  set key := deriveKey s salt with hkey
  set body := xorBytes p (keyStream key iv p.length) with hbody
  set tag := key ++ iv ++ body with htag
  have hct : (encrypt p s salt iv).cipherText = body ++ tag := rfl
  rw [hct]
  rw [hct] at hi
  simp only [List.length_append] at hi
  by_cases hlt : i < body.length
  · have hflip : flipBit (body ++ tag) i j = flipBit body i j ++ tag := by
      simp only [flipBit]
      rw [List.getD_append _ _ _ _ hlt, List.set_append, if_pos hlt]
    rw [hflip]
    apply decrypt_append_err
    · rw [htag, flipBit_length]; simp [Nat.add_assoc]
    · rw [htag, List.append_assoc]
      intro hcon
      have h1 := List.append_cancel_left hcon
      have h2 := List.append_cancel_left h1
      exact flipBit_ne body i j hlt h2.symm
  · push_neg at hlt
    have hflip : flipBit (body ++ tag) i j = body ++ flipBit tag (i - body.length) j := by
      simp only [flipBit]
      rw [List.getD_append_right _ _ _ _ hlt, List.set_append, if_neg (by omega)]
    rw [hflip]
    apply decrypt_append_err
    · rw [flipBit_length, htag]; simp [Nat.add_assoc]
    · rw [← List.append_assoc, ← htag]
      exact flipBit_ne tag (i - body.length) j (by omega)

lemma tamper_salt (p s salt iv : List Nat) (i j : Nat)
    (hi : i < salt.length) :
    decrypt { salt := flipBit salt i j, iv := iv,
              cipherText := (encrypt p s salt iv).cipherText } s
      = .error .decryptionAuthFailure := by
  set key := deriveKey s salt with hkey
  set body := xorBytes p (keyStream key iv p.length) with hbody
  set tag := key ++ iv ++ body with htag
  have hct : (encrypt p s salt iv).cipherText = body ++ tag := rfl
  rw [hct]
  apply decrypt_append_err
  · rw [htag, hkey]
    simp [deriveKey, flipBit_length, Nat.add_assoc]
  · rw [htag, hkey]
    simp only [deriveKey]
    rw [List.append_assoc (s ++ salt)]
    intro hcon
    have hlen : (s ++ salt).length = (s ++ flipBit salt i j).length := by
      simp [flipBit_length]
    have h1 := (List.append_inj hcon hlen).1
    have h2 := List.append_cancel_left h1
    exact flipBit_ne salt i j hi h2.symm

lemma encrypt_cipherText_ne (p s salt₁ iv₁ salt₂ iv₂ : List Nat)
    (hsl : salt₁.length = salt₂.length) (hvl : iv₁.length = iv₂.length)
    (hne : salt₁ ≠ salt₂) :
    (encrypt p s salt₁ iv₁).cipherText ≠ (encrypt p s salt₂ iv₂).cipherText := by
  intro hcon
  simp only [encrypt] at hcon
  have hb₁ : (xorBytes p (keyStream (deriveKey s salt₁) iv₁ p.length)).length
      = p.length := by rw [length_xorBytes, length_keyStream, Nat.min_self]
  have hb₂ : (xorBytes p (keyStream (deriveKey s salt₂) iv₂ p.length)).length
      = p.length := by rw [length_xorBytes, length_keyStream, Nat.min_self]
  have h1 := (List.append_inj hcon (by rw [hb₁, hb₂])).2
  have h2 := (List.append_inj h1 (by simp [deriveKey, hsl, hvl])).1
  have h3 := (List.append_inj h2 (by simp [deriveKey, hsl])).1
  exact hne (List.append_cancel_left (h3 : s ++ salt₁ = s ++ salt₂))

/-- C3: encryption round-trip: decrypting the bundle produced by encrypting
plaintext `p` under a valid 32-byte master secret (with the per-call random
salt and iv of the spec'd lengths) returns exactly `p`. -/
theorem C3_encrypt_decrypt_roundtrip
    (p masterSecret salt iv : List Nat)
    (_hsec : masterSecret.length = SECURITY_CONFIG.BYTE_LENGTHS.SECRET_KEY)
    (_hsalt : salt.length = SECURITY_CONFIG.BYTE_LENGTHS.SALT)
    (_hiv : iv.length = SECURITY_CONFIG.BYTE_LENGTHS.IV) :
    decrypt (encrypt p masterSecret salt iv) masterSecret = .ok p :=
  decrypt_encrypt p masterSecret salt iv

/-- Witness for C3 at concrete byte lists. -/
theorem C3_encrypt_decrypt_roundtrip_witness :
    (List.replicate 32 7 : List Nat).length = SECURITY_CONFIG.BYTE_LENGTHS.SECRET_KEY ∧
    (List.replicate 32 1 : List Nat).length = SECURITY_CONFIG.BYTE_LENGTHS.SALT ∧
    (List.replicate 16 2 : List Nat).length = SECURITY_CONFIG.BYTE_LENGTHS.IV ∧
    decrypt (encrypt [104, 105] (List.replicate 32 7) (List.replicate 32 1)
      (List.replicate 16 2)) (List.replicate 32 7) = .ok [104, 105] :=
  ⟨by decide, by decide, by decide,
    C3_encrypt_decrypt_roundtrip [104, 105] (List.replicate 32 7)
      (List.replicate 32 1) (List.replicate 16 2)
      (by decide) (by decide) (by decide)⟩

/-- C4: tamper detection: flipping any single bit of the cipherText or of the
salt of a bundle produced by `encrypt` makes `decrypt` under the original
secret fail with `DecryptionAuthFailureError`; it never returns plaintext. -/
theorem C4_tamper_detection
    (p masterSecret salt iv : List Nat)
    (_hsec : masterSecret.length = SECURITY_CONFIG.BYTE_LENGTHS.SECRET_KEY)
    (_hsalt : salt.length = SECURITY_CONFIG.BYTE_LENGTHS.SALT)
    (_hiv : iv.length = SECURITY_CONFIG.BYTE_LENGTHS.IV)
    (i j : Nat) :
    (i < (encrypt p masterSecret salt iv).cipherText.length →
      decrypt { salt := salt, iv := iv,
                cipherText :=
                  flipBit (encrypt p masterSecret salt iv).cipherText i j }
        masterSecret = .error .decryptionAuthFailure) ∧
    (i < salt.length →
      decrypt { salt := flipBit salt i j, iv := iv,
                cipherText := (encrypt p masterSecret salt iv).cipherText }
        masterSecret = .error .decryptionAuthFailure) :=
  ⟨fun hi => tamper_ct p masterSecret salt iv i j hi,
   fun hi => tamper_salt p masterSecret salt iv i j hi⟩

/-- Witness for C4: a concrete bit flip in the cipherText and in the salt. -/
theorem C4_tamper_detection_witness :
    0 < (encrypt [104, 105] (List.replicate 32 7) (List.replicate 32 1)
      (List.replicate 16 2)).cipherText.length ∧
    0 < (List.replicate 32 1 : List Nat).length ∧
    decrypt { salt := List.replicate 32 1, iv := List.replicate 16 2,
              cipherText := flipBit (encrypt [104, 105] (List.replicate 32 7)
                (List.replicate 32 1) (List.replicate 16 2)).cipherText 0 3 }
      (List.replicate 32 7) = .error .decryptionAuthFailure ∧
    decrypt { salt := flipBit (List.replicate 32 1) 0 3,
              iv := List.replicate 16 2,
              cipherText := (encrypt [104, 105] (List.replicate 32 7)
                (List.replicate 32 1) (List.replicate 16 2)).cipherText }
      (List.replicate 32 7) = .error .decryptionAuthFailure :=
  ⟨by decide, by decide,
   (C4_tamper_detection [104, 105] (List.replicate 32 7) (List.replicate 32 1)
      (List.replicate 16 2) (by decide) (by decide) (by decide) 0 3).1 (by decide),
   (C4_tamper_detection [104, 105] (List.replicate 32 7) (List.replicate 32 1)
      (List.replicate 16 2) (by decide) (by decide) (by decide) 0 3).2 (by decide)⟩

/-- C5: non-deterministic ciphertext: two encryptions of the same plaintext
and secret with the distinct fresh salts and ivs of two separate random draws
yield bundles differing in salt, in iv and in cipherText. -/
theorem C5_nondeterministic_ciphertext
    (p masterSecret salt₁ iv₁ salt₂ iv₂ : List Nat)
    (hsalt₁ : salt₁.length = SECURITY_CONFIG.BYTE_LENGTHS.SALT)
    (hsalt₂ : salt₂.length = SECURITY_CONFIG.BYTE_LENGTHS.SALT)
    (hiv₁ : iv₁.length = SECURITY_CONFIG.BYTE_LENGTHS.IV)
    (hiv₂ : iv₂.length = SECURITY_CONFIG.BYTE_LENGTHS.IV)
    (hsne : salt₁ ≠ salt₂) (hvne : iv₁ ≠ iv₂) :
    (encrypt p masterSecret salt₁ iv₁).salt ≠ (encrypt p masterSecret salt₂ iv₂).salt ∧
    (encrypt p masterSecret salt₁ iv₁).iv ≠ (encrypt p masterSecret salt₂ iv₂).iv ∧
    (encrypt p masterSecret salt₁ iv₁).cipherText
      ≠ (encrypt p masterSecret salt₂ iv₂).cipherText :=
  ⟨hsne, hvne,
   encrypt_cipherText_ne p masterSecret salt₁ iv₁ salt₂ iv₂
     (hsalt₁.trans hsalt₂.symm) (hiv₁.trans hiv₂.symm) hsne⟩

/-- Witness for C5 at two concrete salt/iv draws. -/
theorem C5_nondeterministic_ciphertext_witness :
    (List.replicate 32 1 : List Nat) ≠ List.replicate 32 3 ∧
    (List.replicate 16 2 : List Nat) ≠ List.replicate 16 4 ∧
    (encrypt [104, 105] (List.replicate 32 7) (List.replicate 32 1)
        (List.replicate 16 2)).cipherText
      ≠ (encrypt [104, 105] (List.replicate 32 7) (List.replicate 32 3)
        (List.replicate 16 4)).cipherText :=
  ⟨by decide, by decide,
   (C5_nondeterministic_ciphertext [104, 105] (List.replicate 32 7)
     (List.replicate 32 1) (List.replicate 16 2) (List.replicate 32 3)
     (List.replicate 16 4) (by decide) (by decide) (by decide) (by decide)
     (by decide) (by decide)).2.2⟩

lemma head?_dropWhile_false {α : Type} (q : α → Bool) :
    ∀ (l : List α) (c : α), (List.dropWhile q l).head? = some c → q c = false := by
  intro l
  induction l with
  | nil => intro c h; simp [List.dropWhile] at h
  | cons a t ih =>
      intro c h
      by_cases hq : q a
      · rw [List.dropWhile_cons_of_pos hq] at h
        exact ih c h
      · rw [List.dropWhile_cons_of_neg hq] at h
        simp at h
        subst h
        simpa using hq
lemma mem_of_mem_trimChars (l : List Char) (c : Char) (h : c ∈ trimChars l) :
    c ∈ l := by
  simp only [trimChars, List.mem_reverse] at h
  have h1 : c ∈ (l.dropWhile Char.isWhitespace).reverse :=
    (List.dropWhile_sublist _).mem h
  rw [List.mem_reverse] at h1
  exact (List.dropWhile_sublist _).mem h1

lemma head?_trimChars (l : List Char) (c : Char)
    (h : (trimChars l).head? = some c) : c.isWhitespace = false := by
  have hpre : trimChars l <+: l.dropWhile Char.isWhitespace := by
    rw [← List.reverse_suffix]
    simpa [trimChars] using
      List.dropWhile_suffix (l := (l.dropWhile Char.isWhitespace).reverse)
        (p := Char.isWhitespace)
  obtain ⟨t, ht⟩ := hpre
  have hne : trimChars l ≠ [] := by
    intro hnil; rw [hnil] at h; simp at h
  have h2 : (l.dropWhile Char.isWhitespace).head? = some c := by
    rw [← ht, List.head?_append_of_ne_nil _ hne, h]
  exact head?_dropWhile_false Char.isWhitespace l c h2

lemma getLast?_trimChars (l : List Char) (c : Char)
    (h : (trimChars l).getLast? = some c) : c.isWhitespace = false := by
  rw [trimChars, List.getLast?_reverse] at h
  exact head?_dropWhile_false Char.isWhitespace
    (l.dropWhile Char.isWhitespace).reverse c h

/-- C8: the sanitizer removes every quote and angle-bracket character, leaves
no leading or trailing whitespace, and maps `ali<ce>` to `alice`. -/
theorem C8_sanitizer_removes_and_trims (s : String) :
    (∀ c ∈ (SanitizationConfig.sanitizeString s).data,
        c.toNat ≠ 34 ∧ c.toNat ≠ 39 ∧ c.toNat ≠ 60 ∧ c.toNat ≠ 62) ∧
    (∀ c, (SanitizationConfig.sanitizeString s).data.head? = some c →
        c.isWhitespace = false) ∧
    (∀ c, (SanitizationConfig.sanitizeString s).data.getLast? = some c →
        c.isWhitespace = false) ∧
    SanitizationConfig.sanitizeString "ali<ce>" = "alice" := by
  refine ⟨?_, ?_, ?_, by decide⟩
  · intro c hc
    by_cases hs : s = ""
    · simp [SanitizationConfig.sanitizeString, hs] at hc
    · simp only [SanitizationConfig.sanitizeString, if_neg hs] at hc
      have h1 := mem_of_mem_trimChars _ c hc
      have h2 := List.of_mem_filter h1
      simp [isRemovedChar] at h2
      omega
  · intro c hc
    by_cases hs : s = ""
    · simp [SanitizationConfig.sanitizeString, hs] at hc
    · simp only [SanitizationConfig.sanitizeString, if_neg hs] at hc
      exact head?_trimChars _ c hc
  · intro c hc
    by_cases hs : s = ""
    · simp [SanitizationConfig.sanitizeString, hs] at hc
    · simp only [SanitizationConfig.sanitizeString, if_neg hs] at hc
      exact getLast?_trimChars _ c hc

/-- Witness for C8 at a concrete input containing quotes, angle brackets and
surrounding whitespace. -/
theorem C8_sanitizer_removes_and_trims_witness :
    SanitizationConfig.sanitizeString "ali<ce>" = "alice" ∧
    ((Char.ofNat 97) ∈ (SanitizationConfig.sanitizeString " \"ali<ce>\" ").data ∧
      (Char.ofNat 97).toNat ≠ 34 ∧ (Char.ofNat 97).toNat ≠ 39 ∧
      (Char.ofNat 97).toNat ≠ 60 ∧ (Char.ofNat 97).toNat ≠ 62) ∧
    ((SanitizationConfig.sanitizeString " \"ali<ce>\" ").data.head?
        = some (Char.ofNat 97) ∧ (Char.ofNat 97).isWhitespace = false) :=
  ⟨(C8_sanitizer_removes_and_trims "x").2.2.2,
   ⟨by decide,
    (C8_sanitizer_removes_and_trims " \"ali<ce>\" ").1 (Char.ofNat 97) (by decide)⟩,
   ⟨by decide,
    (C8_sanitizer_removes_and_trims " \"ali<ce>\" ").2.1 (Char.ofNat 97) (by decide)⟩⟩

/-- C1 counterexample: a credential resolved on the local (non-CI) path keeps
leading/trailing whitespace and angle brackets: `decryptCredentials` returns
the decrypted plaintext verbatim. The decryption step is instantiated with an
oracle returning the plaintext ` ali<ce> ` — a behaviour every round-trip
correct cipher exhibits for a bundle encrypting that string. -/
theorem C1_counterexample :
    getEnvironmentValue false (getCICredentials (some "u") (some "pw"))
      (decryptCredentials (fun c _ => .ok c) " ali<ce> " "pw" "key")
      = .ok { username := " ali<ce> ", password := "pw" } ∧
    SanitizationConfig.sanitizeString " ali<ce> " = "alice" ∧
    (" ali<ce> " : String) ≠ "alice" :=
  ⟨rfl, by decide, by decide⟩

/-- C1 (amended): sanitization is applied on the CI path — every value the CI
fetcher returns is `sanitizeString` of the raw environment value — but the
local decryption path returns the decrypted username and password verbatim,
without sanitization. -/
theorem C1_sanitization_paths (v : Option String) (raw : String)
    (dec : String → String → Except AppError String) (u p k a b : String) :
    (v = some raw → jsTrim raw ≠ "" →
      fetchCIEnvironmentVariable v = .ok (SanitizationConfig.sanitizeString raw)) ∧
    (dec u k = .ok a → dec p k = .ok b →
      decryptCredentials dec u p k = .ok { username := a, password := b }) := by
  constructor
  · intro hv hraw
    subst hv
    simp [fetchCIEnvironmentVariable, hraw]
  · intro h1 h2
    simp [decryptCredentials, h1, h2]

/-- Witness for the amended C1 at concrete inputs. -/
theorem C1_sanitization_paths_witness :
    ((some "ci<va>l" : Option String) = some "ci<va>l") ∧
    jsTrim "ci<va>l" ≠ "" ∧
    fetchCIEnvironmentVariable (some "ci<va>l") = .ok "cival" ∧
    ((fun (c : String) (_ : String) => (.ok c : Except AppError String))
        " ali<ce> " "key" = .ok " ali<ce> ") ∧
    decryptCredentials (fun c _ => .ok c) " ali<ce> " "pw" "key"
      = .ok { username := " ali<ce> ", password := "pw" } :=
  ⟨rfl, by decide,
   ((C1_sanitization_paths (some "ci<va>l") "ci<va>l" (fun c _ => .ok c)
       " ali<ce> " "pw" "key" " ali<ce> " "pw").1 rfl (by decide)).trans
     (congrArg Except.ok (by decide)),
   rfl,
   (C1_sanitization_paths (some "ci<va>l") "ci<va>l" (fun c _ => .ok c)
       " ali<ce> " "pw" "key" " ali<ce> " "pw").2 rfl rfl⟩

/-- C2: with `isCI = true` the resolver returns exactly the CI computation —
a function of the CI-provided plaintext environment values alone, whatever
the local method would do — and its secret-material trace is empty: no
decryption call, no master-secret read. -/
theorem C2_ci_path_reads_only_ci_env (username password : Option String)
    (localMethod : Traced Credentials) :
    getEnvironmentValueTraced true (getCICredentialsTraced username password)
        localMethod
      = (getCICredentials username password, []) ∧
    CryptoOp.decryptOp ∉ (getEnvironmentValueTraced true
      (getCICredentialsTraced username password) localMethod).2 ∧
    CryptoOp.readMasterSecretOp ∉ (getEnvironmentValueTraced true
      (getCICredentialsTraced username password) localMethod).2 := by
  refine ⟨rfl, ?_, ?_⟩ <;>
    simp [getEnvironmentValueTraced, getCICredentialsTraced]

/-- C6: error propagation without substitution: a failing decryption step
makes `decryptCredentials` fail with the same error, and a failing branch
makes `EnvironmentResolver.getEnvironmentValue` fail with the same error —
never a default value in place of the failure. -/
theorem C6_error_propagation
    (dec : String → String → Except AppError String)
    (u p k : String) (e : AppError) :
    (dec u k = .error e → decryptCredentials dec u p k = .error e) ∧
    (∀ a, dec u k = .ok a → dec p k = .error e →
      decryptCredentials dec u p k = .error e) ∧
    (∀ ciMethod localMethod : Except AppError Credentials,
      (ciMethod = .error e →
        getEnvironmentValue true ciMethod localMethod = .error e) ∧
      (localMethod = .error e →
        getEnvironmentValue false ciMethod localMethod = .error e)) := by
  refine ⟨?_, ?_, ?_⟩
  · intro h; simp [decryptCredentials, h]
  · intro a h1 h2; simp [decryptCredentials, h1, h2]
  · intro ciMethod localMethod
    exact ⟨fun h => by simp [getEnvironmentValue, h],
           fun h => by simp [getEnvironmentValue, h]⟩

/-- Witness for C6 with a concrete failing decryption oracle. -/
theorem C6_error_propagation_witness :
    ((fun (_ : String) (_ : String) =>
        (.error .decryptionAuthFailure : Except AppError String)) "u" "k"
      = .error .decryptionAuthFailure) ∧
    decryptCredentials (fun _ _ => .error .decryptionAuthFailure) "u" "p" "k"
      = .error .decryptionAuthFailure ∧
    ((.error .secretKeyNotFound : Except AppError Credentials)
      = .error .secretKeyNotFound) ∧
    getEnvironmentValue false (.ok { username := "a", password := "b" })
      (.error .secretKeyNotFound : Except AppError Credentials)
      = .error .secretKeyNotFound :=
  ⟨rfl,
   (C6_error_propagation (fun _ _ => .error .decryptionAuthFailure) "u" "p" "k"
     .decryptionAuthFailure).1 rfl,
   rfl,
   ((C6_error_propagation (fun _ _ => .error .decryptionAuthFailure) "u" "p" "k"
     .secretKeyNotFound).2.2 (.ok { username := "a", password := "b" })
     (.error .secretKeyNotFound)).2 rfl⟩

/-- C7: an environment variable that is absent, empty, or whitespace-only
makes both the CI and the local fetch fail with `MissingEnvVarError`; a fetch
returns normally exactly when the value is non-empty after trimming. -/
theorem C7_env_validation (s : String) (b : Bool) :
    fetchCIEnvironmentVariable none = .error .missingEnvVar ∧
    getLocalEnvironmentVariable none b = .error .missingEnvVar ∧
    (jsTrim s = "" →
      fetchCIEnvironmentVariable (some s) = .error .missingEnvVar ∧
      getLocalEnvironmentVariable (some s) b = .error .missingEnvVar) ∧
    (jsTrim s ≠ "" →
      fetchCIEnvironmentVariable (some s)
        = .ok (SanitizationConfig.sanitizeString s) ∧
      getLocalEnvironmentVariable (some s) b
        = .ok (if b then SanitizationConfig.sanitizeString s else s)) := by
  refine ⟨rfl, rfl, ?_, ?_⟩
  · intro h
    exact ⟨by simp [fetchCIEnvironmentVariable, h],
           by simp [getLocalEnvironmentVariable, h]⟩
  · intro h
    exact ⟨by simp [fetchCIEnvironmentVariable, h],
           by simp [getLocalEnvironmentVariable, h]⟩

/-- Witness for C7 at a whitespace-only and a non-empty value. -/
theorem C7_env_validation_witness :
    jsTrim "  " = "" ∧
    fetchCIEnvironmentVariable (some "  ") = .error .missingEnvVar ∧
    getLocalEnvironmentVariable (some "  ") false = .error .missingEnvVar ∧
    jsTrim "x" ≠ "" ∧
    fetchCIEnvironmentVariable (some "x") = .ok "x" ∧
    getLocalEnvironmentVariable (some "x") false = .ok "x" :=
  ⟨by decide,
   ((C7_env_validation "  " false).2.2.1 (by decide)).1,
   ((C7_env_validation "  " false).2.2.1 (by decide)).2,
   by decide,
   (((C7_env_validation "x" false).2.2.2 (by decide)).1).trans
     (congrArg Except.ok (by decide)),
   (((C7_env_validation "x" false).2.2.2 (by decide)).2).trans
     (congrArg Except.ok (by decide))⟩

/-- C9: the shared security configuration constant fixes salt 32, iv 16
(12 in the web-crypto mode), secret key 32, and Argon2 parameters
262144 KiB = 256 MB memory, 4 passes, 3 lanes. -/
theorem C9_security_config_constant :
    SECURITY_CONFIG.BYTE_LENGTHS.SALT = 32 ∧
    SECURITY_CONFIG.BYTE_LENGTHS.IV = 16 ∧
    SECURITY_CONFIG.BYTE_LENGTHS.WEB_CRYPTO_IV = 12 ∧
    SECURITY_CONFIG.BYTE_LENGTHS.SECRET_KEY = 32 ∧
    SECURITY_CONFIG.ARGON2_PARAMETERS.MEMORY_COST = 262144 ∧
    SECURITY_CONFIG.ARGON2_PARAMETERS.MEMORY_COST * 1024 = 256 * 1024 * 1024 ∧
    SECURITY_CONFIG.ARGON2_PARAMETERS.TIME_COST = 4 ∧
    SECURITY_CONFIG.ARGON2_PARAMETERS.PARALLELISM = 3 := by
  decide

/-- C10: stage detection is total with a silent default: for every
ENV/NODE_ENV input `getCurrentStage` returns a member of dev/uat/prod, and
returns `dev` when the effective input is unset or not a valid stage. -/
theorem C10_stage_detection_total (envVar nodeEnvVar : Option String) :
    (EnvironmentDetector.getCurrentStage envVar nodeEnvVar = "dev" ∨
     EnvironmentDetector.getCurrentStage envVar nodeEnvVar = "uat" ∨
     EnvironmentDetector.getCurrentStage envVar nodeEnvVar = "prod") ∧
    (envVar = none → nodeEnvVar = none →
      EnvironmentDetector.getCurrentStage envVar nodeEnvVar = "dev") ∧
    (isValidEnvironmentStage (jsOr envVar (jsOr nodeEnvVar "dev")) = false →
      EnvironmentDetector.getCurrentStage envVar nodeEnvVar = "dev") := by
  refine ⟨?_, ?_, ?_⟩
  · by_cases h : isValidEnvironmentStage (jsOr envVar (jsOr nodeEnvVar "dev")) = true
    · simp only [EnvironmentDetector.getCurrentStage, h, if_true]
      have h' := h
      simp only [isValidEnvironmentStage, Bool.or_eq_true, decide_eq_true_eq] at h'
      tauto
    · left
      simp only [EnvironmentDetector.getCurrentStage]
      rw [if_neg (by simpa using h)]
  · intro h1 h2
    subst h1; subst h2
    rfl
  · intro h
    simp only [EnvironmentDetector.getCurrentStage]
    rw [if_neg (by simp [h])]

/-- Witness for C10 at an unset pair and at an invalid stage name. -/
theorem C10_stage_detection_total_witness :
    EnvironmentDetector.getCurrentStage none none = "dev" ∧
    isValidEnvironmentStage (jsOr (some "staging") (jsOr none "dev")) = false ∧
    EnvironmentDetector.getCurrentStage (some "staging") none = "dev" :=
  ⟨(C10_stage_detection_total none none).2.1 rfl rfl,
   by decide,
   (C10_stage_detection_total (some "staging") none).2.2 (by decide)⟩
